import Mathlib

/-!
Shallow embedding of the BusTub storage-engine core (buffer pool manager and
persistent extendible hash table) for checking the natural-language
specification against the code.

Source files embedded:
- src/storage/page/hash_table_bucket_page.cpp   (HashTableBucketPage)
- src/storage/page/hash_table_directory_page.cpp (HashTableDirectoryPage)
- src/container/hash/extendible_hash_table.cpp  (ExtendibleHashTable)
- src/buffer/lru_replacer.cpp                   (LRUReplacer)
- src/buffer/buffer_pool_manager_instance.cpp   (BufferPoolManagerInstance)
- src/buffer/parallel_buffer_pool_manager.cpp   (ParallelBufferPoolManager)

Conventions of the embedding:
- keys, values and hash values are natural numbers; the template instantiation
  modelled is HashTableBucketPage<int, int, IntComparator>, whose comparator
  is plain equality;
- machine integers are modelled as Nat with explicit reductions mod 2^32
  (uint32_t), mod 256 (uint8_t and bitmap bytes) and mod 2^64 (size_t) at the
  operations where the C++ type can wrap; pin counts and page ids that can be
  negative are modelled as Int;
- unbounded C++ loops (the directory rewrite loop of SplitInsert, the
  redirect loop of Merge, the Merge tail recursion, the rehash scan) take a
  fuel argument and return Option; a result of none for every fuel witnesses
  that the loop never exits;
- fixed-size C++ arrays are modelled as total functions from Nat; C++ code
  never reads an index the embedding does not also read.
-/

/-- Pointwise update of a function array at one index, the analogue of a C++
array store. -/
def upd {α : Type} (f : Nat → α) (i : Nat) (x : α) : Nat → α :=
  fun j => if j = i then x else f j

/-- Reading an array back at the updated index gives the stored value. -/
theorem upd_same {α : Type} (g : Nat → α) (i : Nat) (x : α) : upd g i x i = x := by
  simp [upd]

/-- Reading an array back at a different index is unchanged. -/
theorem upd_other {α : Type} (g : Nat → α) (i j : Nat) (x : α) (h : j ≠ i) :
    upd g i x j = g j := by
  simp [upd, h]

/-- Update of an Int-indexed map (used for the disk and similar stores keyed
by page_id_t). -/
def updI {α : Type} (f : Int → α) (i : Int) (x : α) : Int → α :=
  fun j => if j = i then x else f j

/-- Decrement of a size_t value, wrapping mod 2^64 like the unsigned C++
subtraction. -/
def usub1 (n : Nat) : Nat := (n + (18446744073709551615 : Nat)) % 18446744073709551616

/-- Increment of a size_t value mod 2^64. -/
def uadd1 (n : Nat) : Nat := (n + 1) % 18446744073709551616

/-! ### Bucket pages (src/storage/page/hash_table_bucket_page.cpp)

The occupied/readable bitmaps are stored as byte arrays, exactly as in the
source: bit i%8 of byte i/8. Bytes are Nats kept below 256 by the
operations. -/

/-- Modelled from the spec: the capacity of one bucket page lives in the
missing header hash_table_bucket_page.h; the spec's layout section sizes
the bucket to fit PAGE_SIZE, which at the <int,int> instantiation gives
4 * 4096 / (4 * 8 + 1) = 496. -/
def BUCKET_ARRAY_SIZE : Nat := 496

/-- Mask used for every bitmap access: static_cast<char>(1 << (i % 8)). -/
def bitMask (i : Nat) : Nat := 2 ^ (i % 8)

/-- State of one HashTableBucketPage: the two bitmaps (as byte arrays) and
the key/value array. -/
structure Bucket where
  occupiedBytes : Nat → Nat
  readableBytes : Nat → Nat
  pairs : Nat → Nat × Nat

/-- Bucket page whose memory is zeroed, as produced by NewPage. -/
def Bucket.zero : Bucket :=
  { occupiedBytes := fun _ => 0, readableBytes := fun _ => 0, pairs := fun _ => (0, 0) }

/-- IsOccupied: (occupied_[i / 8] & mask) != 0. -/
def Bucket.isOccupied (b : Bucket) (i : Nat) : Bool :=
  (b.occupiedBytes (i / 8) &&& bitMask i) != 0

/-- IsReadable: (readable_[i / 8] & mask) != 0. -/
def Bucket.isReadable (b : Bucket) (i : Nat) : Bool :=
  (b.readableBytes (i / 8) &&& bitMask i) != 0

/-- KeyAt. -/
def Bucket.keyAt (b : Bucket) (i : Nat) : Nat := (b.pairs i).1

/-- ValueAt. -/
def Bucket.valueAt (b : Bucket) (i : Nat) : Nat := (b.pairs i).2

/-- RemoveAt: readable_[i/8] = readable_[i/8] & (255 - mask). -/
def Bucket.removeAt (b : Bucket) (i : Nat) : Bucket :=
  { b with readableBytes := upd b.readableBytes (i / 8) (b.readableBytes (i / 8) &&& (255 - bitMask i)) }

/-- Scan of GetValue: walk slots from i while cnt remains, stopping at the
first un-occupied slot, collecting the values of readable slots whose key
matches. -/
def getValueGo (b : Bucket) (key : Nat) : Nat → Nat → List Nat → List Nat
  | _, 0, acc => acc
  | i, cnt + 1, acc =>
    if !(b.isOccupied i) then acc
    else getValueGo b key (i + 1) cnt
      (if b.isReadable i && (key == b.keyAt i) then acc ++ [b.valueAt i] else acc)

/-- GetValue: appends matches to the result vector passed by the caller and
returns whether the vector is non-empty afterwards. -/
def Bucket.getValue (b : Bucket) (key : Nat) (result : List Nat) : List Nat × Bool :=
  let r := getValueGo b key 0 BUCKET_ARRAY_SIZE result
  (r, !r.isEmpty)

/-- Scan of Insert: returns none when a duplicate (key,value) is found
(Insert returns false), otherwise some of the chosen available index
(BUCKET_ARRAY_SIZE when no slot is available). The accumulator avail is the
first tombstone seen so far, else BUCKET_ARRAY_SIZE. -/
def insertScanGo (b : Bucket) (key value : Nat) : Nat → Nat → Nat → Option Nat
  | _, 0, avail => some avail
  | i, cnt + 1, avail =>
    if !(b.isOccupied i) then
      some (if avail == BUCKET_ARRAY_SIZE then i else avail)
    else if b.isReadable i && (key == b.keyAt i) && (value == b.valueAt i) then
      none
    else
      insertScanGo b key value (i + 1) cnt
        (if avail == BUCKET_ARRAY_SIZE && !(b.isReadable i) then i else avail)

/-- Insert: scan for a duplicate and an available slot; on success write the
pair and set both bits of the chosen slot. Returns the new bucket and the
boolean result. -/
def Bucket.insert (b : Bucket) (key value : Nat) : Bucket × Bool :=
  match insertScanGo b key value 0 BUCKET_ARRAY_SIZE BUCKET_ARRAY_SIZE with
  | none => (b, false)
  | some avail =>
    if avail == BUCKET_ARRAY_SIZE then (b, false)
    else
      ({ occupiedBytes := upd b.occupiedBytes (avail / 8) (b.occupiedBytes (avail / 8) ||| bitMask avail),
         readableBytes := upd b.readableBytes (avail / 8) (b.readableBytes (avail / 8) ||| bitMask avail),
         pairs := upd b.pairs avail (key, value) }, true)

/-- Scan of Remove: index of the first readable slot matching (key,value),
stopping at the first un-occupied slot. -/
def removeScanGo (b : Bucket) (key value : Nat) : Nat → Nat → Option Nat
  | _, 0 => none
  | i, cnt + 1 =>
    if !(b.isOccupied i) then none
    else if b.isReadable i && (key == b.keyAt i) && (value == b.valueAt i) then some i
    else removeScanGo b key value (i + 1) cnt

/-- Remove: clear the readable bit of the first matching slot (the occupied
bit stays set, leaving a tombstone). -/
def Bucket.remove (b : Bucket) (key value : Nat) : Bucket × Bool :=
  match removeScanGo b key value 0 BUCKET_ARRAY_SIZE with
  | none => (b, false)
  | some i => (b.removeAt i, true)

/-- Scan of IsFull: every slot must be occupied and readable. -/
def isFullGo (b : Bucket) : Nat → Nat → Bool
  | _, 0 => true
  | i, cnt + 1 =>
    if !(b.isOccupied i) || (b.isOccupied i && !(b.isReadable i)) then false
    else isFullGo b (i + 1) cnt

/-- IsFull. -/
def Bucket.isFull (b : Bucket) : Bool := isFullGo b 0 BUCKET_ARRAY_SIZE

/-- IsEmpty, exactly as in the source: it inspects only the first byte of
the readable bitmap (readable_[0] == 0), i.e. slots 0..7. -/
def Bucket.isEmpty (b : Bucket) : Bool := b.readableBytes 0 == 0

/-! ### Directory page (src/storage/page/hash_table_directory_page.cpp) -/

/-- Modelled from the spec: the number of slots of the directory array
lives in the missing header hash_table_directory_page.h; the spec's
persisted layout fixes DIRECTORY_ARRAY_SIZE = 512. -/
def DIRECTORY_ARRAY_SIZE : Nat := 512

/-- State of one HashTableDirectoryPage. global_depth_ is uint32_t, each
local depth is uint8_t, bucket page ids are non-negative page_id_t. -/
structure Directory where
  pageId : Nat
  globalDepth : Nat
  localDepths : Nat → Nat
  bucketPageIds : Nat → Nat

/-- Directory page whose memory is zeroed (all fields zero), the
reinterpretation of a fresh NewPage page. -/
def Directory.zero : Directory :=
  { pageId := 0, globalDepth := 0, localDepths := fun _ => 0, bucketPageIds := fun _ => 0 }

/-- GetGlobalDepthMask: (uint32)(1 << global_depth_) - 1, with the uint32
wrap made explicit. -/
def gdMask (gd : Nat) : Nat :=
  (2 ^ gd % 4294967296 + 4294967295) % 4294967296

/-- GetGlobalDepthMask on a directory. -/
def Directory.getGlobalDepthMask (d : Directory) : Nat := gdMask d.globalDepth

/-- Size: (uint32)(1 << global_depth_). -/
def Directory.size (d : Directory) : Nat := 2 ^ d.globalDepth % 4294967296

/-- IncrGlobalDepth. -/
def Directory.incrGlobalDepth (d : Directory) : Directory :=
  { d with globalDepth := (d.globalDepth + 1) % 4294967296 }

/-- DecrGlobalDepth. -/
def Directory.decrGlobalDepth (d : Directory) : Directory :=
  { d with globalDepth := (d.globalDepth + 4294967295) % 4294967296 }

/-- SetBucketPageId. -/
def Directory.setBucketPageId (d : Directory) (i pid : Nat) : Directory :=
  { d with bucketPageIds := upd d.bucketPageIds i pid }

/-- SetLocalDepth (the argument is a uint8_t). -/
def Directory.setLocalDepth (d : Directory) (i ld : Nat) : Directory :=
  { d with localDepths := upd d.localDepths i (ld % 256) }

/-- IncrLocalDepth (uint8_t increment). -/
def Directory.incrLocalDepth (d : Directory) (i : Nat) : Directory :=
  { d with localDepths := upd d.localDepths i ((d.localDepths i + 1) % 256) }

/-- DecrLocalDepth (uint8_t decrement, wrapping mod 256). -/
def Directory.decrLocalDepth (d : Directory) (i : Nat) : Directory :=
  { d with localDepths := upd d.localDepths i ((d.localDepths i + 255) % 256) }

/-- Core of GetLocalHighBit as the source computes it:
sibling = (GetGlobalDepthMask() >> 1) & idx, plus 1 << (global_depth_ - 1)
when sibling == idx and global_depth_ >= 1. Note that it depends on the
global depth only, never on a local depth. -/
def localHighBitCore (gd idx : Nat) : Nat :=
  let s := (gdMask gd >>> 1) &&& idx
  if s = idx ∧ 1 ≤ gd then (s + 2 ^ (gd - 1)) % 4294967296 else s

/-- GetLocalHighBit. -/
def Directory.getLocalHighBit (d : Directory) (idx : Nat) : Nat :=
  localHighBitCore d.globalDepth idx

/-- Scan of CanShrink: false as soon as some slot i < size has
local_depths_[i] >= global_depth_. -/
def canShrinkGo (d : Directory) : Nat → Nat → Bool
  | _, 0 => true
  | i, cnt + 1 =>
    if d.globalDepth ≤ d.localDepths i then false
    else canShrinkGo d (i + 1) cnt

/-- CanShrink. -/
def Directory.canShrink (d : Directory) : Bool := canShrinkGo d 0 d.size

/-- VerifyIntegrity as a boolean predicate. The source walks the directory
building page-id maps and asserts three facts; this is the same test stated
directly: (I1) every local depth is at most the global depth, (I3) slots
sharing a bucket page id share a local depth, (I2) each bucket page id
appearing in the directory is pointed to by exactly
2^(global_depth - local_depth) slots. -/
def Directory.verifyIntegrity (d : Directory) : Bool :=
  let n := d.size
  ((List.range n).all fun i => d.localDepths i ≤ d.globalDepth) &&
  ((List.range n).all fun i => (List.range n).all fun j =>
      (d.bucketPageIds i != d.bucketPageIds j) || (d.localDepths i == d.localDepths j)) &&
  ((List.range n).all fun i =>
      (List.range n).countP (fun j => d.bucketPageIds j == d.bucketPageIds i)
        == 2 ^ (d.globalDepth - d.localDepths i))

/-- Modelled from the spec: FindFirstBucket is declared in the missing
directory-page header; the split and merge paths use it to locate the
directory slots pointing at a bucket page "found by scanning" (spec, split
step 4), so it is modelled as the smallest directory index whose bucket
page id equals the argument, and the directory size when there is none. -/
def findFirstBucketGo (d : Directory) (pid : Nat) : Nat → Nat → Nat
  | i, 0 => i
  | i, cnt + 1 => if d.bucketPageIds i = pid then i else findFirstBucketGo d pid (i + 1) cnt

/-- FindFirstBucket (modelled from the spec, see findFirstBucketGo). -/
def Directory.findFirstBucket (d : Directory) (pid : Nat) : Nat :=
  findFirstBucketGo d pid 0 d.size

/-! ### Extendible hash table (src/container/hash/extendible_hash_table.cpp)

The table drives the directory page and the bucket pages through the buffer
pool. The embedding keeps the functional content of that interaction: the
pool is a map from page id to bucket content plus the allocation counter,
and NewPage is assumed to succeed (the pool is not exhausted) and to hand
out zeroed pages. Latches and pin bookkeeping have no effect on the values
computed and are elided. The hash function of the table is a parameter h;
Hash(key) downcasts to uint32_t. -/

/-- Functional state of one ExtendibleHashTable: the directory page, the
bucket pages indexed by page id, and the allocation cursor of the buffer
pool. -/
structure TableState where
  dir : Directory
  buckets : Nat → Bucket
  nextPageId : Nat

/-- Hash: downcast of the hash to uint32_t. -/
def hashOf (h : Nat → Nat) (key : Nat) : Nat := h key % 4294967296

/-- KeyToDirectoryIndex: Hash(key) & GetGlobalDepthMask(). -/
def keyToDirectoryIndex (h : Nat → Nat) (d : Directory) (key : Nat) : Nat :=
  hashOf h key &&& d.getGlobalDepthMask

/-- KeyToPageId: bucket_page_ids_[KeyToDirectoryIndex(key)]. -/
def keyToPageId (h : Nat → Nat) (d : Directory) (key : Nat) : Nat :=
  d.bucketPageIds (keyToDirectoryIndex h d key)

/-- GetValue of the table: hash to a bucket and scan it. The result vector
startes empty as at the call sites of the tests. -/
def tableGetValue (h : Nat → Nat) (st : TableState) (key : Nat) : List Nat × Bool :=
  (st.buckets (keyToPageId h st.dir key)).getValue key []

/-- One iteration of the directory rewrite loop of SplitInsert (lines
200-213 of the source): compute the split image via GetLocalHighBit, point
it at the new bucket page, increment both local depths, and advance
bucket_idx by GetLocalHighBit (re-read after the updates). Returns the new
directory and the next bucket_idx. -/
def splitLoopBody (d : Directory) (splitPid i : Nat) : Directory × Nat :=
  let splitIdx := i ^^^ d.getLocalHighBit i
  let d1 := d.setBucketPageId splitIdx splitPid
  let d2 := (d1.incrLocalDepth i).incrLocalDepth splitIdx
  (d2, i + d2.getLocalHighBit i)

/-- Fueled run of the rewrite loop: while (bucket_idx < Size()). A result
of none for every fuel means the loop never exits. -/
def splitLoop : Nat → Directory → Nat → Nat → Option Directory
  | 0, _, _, _ => none
  | fuel + 1, d, splitPid, i =>
    if i < d.size then
      let s := splitLoopBody d splitPid i
      splitLoop fuel s.1 splitPid s.2
    else some d

/-- Iterated rewrite-loop body (same body as splitLoop, same exit test),
used to inspect the directory contents after a given number of
iterations. -/
def splitLoopIter : Nat → Directory → Nat → Nat → Directory × Nat
  | 0, d, _, i => (d, i)
  | n + 1, d, splitPid, i =>
    if i < d.size then
      let s := splitLoopBody d splitPid i
      splitLoopIter n s.1 splitPid s.2
    else (d, i)

/-- Guard of SplitInsert (line 159): GetLocalHighBit(bucket_idx) >
DIRECTORY_ARRAY_SIZE, the path logged as "reaching the directory page max
capacity". -/
def splitCapacityGuard (d : Directory) (idx : Nat) : Bool :=
  decide (DIRECTORY_ARRAY_SIZE < d.getLocalHighBit idx)

/-- Copy loop of the directory doubling (lines 172-176): for i <
Size() / 2, copy slot i to slot i + Size() / 2. The counter cnt runs over
the remaining iterations. -/
def doubleLoopGo : Nat → Nat → Directory → Directory
  | _, 0, d => d
  | i, cnt + 1, d =>
    let sib := i + d.size / 2
    let d1 := d.setBucketPageId sib (d.bucketPageIds i)
    let d2 := d1.setLocalDepth sib (d1.localDepths i)
    doubleLoopGo (i + 1) cnt d2

/-- Doubling step of SplitInsert (lines 168-178): when the local depth of
the target slot equals the global depth, increment the global depth and
duplicate the lower half of the directory into the upper half. -/
def splitDoublePhase (d : Directory) (idx : Nat) : Directory :=
  if d.globalDepth == d.localDepths idx then
    let dg := d.incrGlobalDepth
    doubleLoopGo 0 (dg.size / 2) dg
  else d

/-- Rehash scan of SplitInsert (lines 221-232): walk the records of the old
bucket while they are occupied; move each readable record whose
KeyToPageId no longer equals the old page id into the new bucket. The C++
loop has no index bound, so it takes fuel. -/
def rehashLoop (h : Nat → Nat) : Nat → Directory → Bucket → Bucket → Nat → Nat → Option (Bucket × Bucket)
  | 0, _, _, _, _, _ => none
  | fuel + 1, d, bOld, bNew, bpid, i =>
    if !(bOld.isOccupied i) then some (bOld, bNew)
    else if !(bOld.isReadable i) then rehashLoop h fuel d bOld bNew bpid (i + 1)
    else if keyToPageId h d (bOld.keyAt i) == bpid then rehashLoop h fuel d bOld bNew bpid (i + 1)
    else
      let v := bOld.valueAt i
      let k := bOld.keyAt i
      let bOld1 := bOld.removeAt i
      let bNew1 := (bNew.insert k v).1
      rehashLoop h fuel d bOld1 bNew1 bpid (i + 1)

/-- Continuation of SplitInsert after the rewrite loop: rehash the old
bucket and retry the original insert. Factored out so that theorems can
speak about the propagation of a non-terminating rewrite loop. -/
def afterSplitLoop (h : Nat → Nat)
    (ins : TableState → Nat → Nat → Option (TableState × Bool))
    (fuel : Nat) (st : TableState) (key value bpid newPid : Nat) :
    Option Directory → Option (TableState × Bool)
  | none => none
  | some d2 =>
    match rehashLoop h fuel d2 (st.buckets bpid) (st.buckets newPid) bpid 0 with
    | none => none
    | some (bOld, bNew) =>
      ins { st with dir := d2, buckets := upd (upd st.buckets bpid bOld) newPid bNew } key value

/-- Insert and SplitInsert, mutually recursive through the fuel. Insert
(lines 122-149): if the target bucket is not full, insert locally;
otherwise call SplitInsert. SplitInsert (lines 151-245): capacity guard,
optional directory doubling, allocation of the split bucket page, directory
rewrite loop, rehash, then retry Insert. none means a loop or the
recursion did not finish within the fuel. -/
def tableInsertGo (h : Nat → Nat) : Nat → TableState → Nat → Nat → Option (TableState × Bool)
  | 0, _, _, _ => none
  | fuel + 1, st, key, value =>
    let idx := keyToDirectoryIndex h st.dir key
    let pid := st.dir.bucketPageIds idx
    let b := st.buckets pid
    if !b.isFull then
      let r := b.insert key value
      some ({ st with buckets := upd st.buckets pid r.1 }, r.2)
    else
      -- SplitInsert body
      if splitCapacityGuard st.dir idx then some (st, false)
      else
        let d1 := splitDoublePhase st.dir idx
        let newPid := st.nextPageId
        let st1 : TableState :=
          { dir := d1, buckets := upd st.buckets newPid Bucket.zero, nextPageId := st.nextPageId + 1 }
        let j0 := d1.findFirstBucket pid
        afterSplitLoop h (tableInsertGo h fuel) fuel st1 key value pid newPid
          (splitLoop fuel d1 newPid j0)

/-- One iteration of the redirect loop of Merge (lines 321-339): recompute
the merge image of the current slot, point the empty side at the non-empty
side, decrement both local depths, and advance by twice GetLocalHighBit
(re-read after the updates). bEmpty is IsEmpty() of the bucket page fetched
at entry (its contents do not change during the loop). -/
def mergeLoopBody (d : Directory) (bEmpty : Bool) (i : Nat) : Directory × Nat :=
  let mi := i ^^^ (d.getLocalHighBit i >>> 1)
  let d1 :=
    if bEmpty then d.setBucketPageId i (d.bucketPageIds mi)
    else d.setBucketPageId mi (d.bucketPageIds i)
  let d2 := (d1.decrLocalDepth i).decrLocalDepth mi
  (d2, i + 2 * d2.getLocalHighBit i)

/-- Fueled redirect loop of Merge. mEmpty is IsEmpty() of the merge bucket
page; the source asserts it on the branch where the primary bucket is
non-empty, and a failed assertion aborts (modelled as none). -/
def mergeLoop : Nat → Directory → Bool → Bool → Nat → Option Directory
  | 0, _, _, _, _ => none
  | fuel + 1, d, bEmpty, mEmpty, i =>
    if i < d.size then
      if !bEmpty && !mEmpty then none
      else
        let s := mergeLoopBody d bEmpty i
        mergeLoop fuel s.1 bEmpty mEmpty s.2
    else some d

/-- Shrink loop of Merge (lines 348-358): for every slot of the upper half,
assert that it equals its lower-half twin (abort modelled as none), then
zero it. -/
def shrinkLoopGo : Nat → Nat → Directory → Option Directory
  | _, 0, d => some d
  | i, cnt + 1, d =>
    let sib := i - d.size / 2
    if d.bucketPageIds i = d.bucketPageIds sib then
      shrinkLoopGo (i + 1) cnt ((d.setBucketPageId i 0).setLocalDepth i 0)
    else none

/-- Merge (lines 290-370), including its unconditional tail recursion
(line 369). Returns the state together with the number of coalescing
passes performed (passes that survive the entry precondition and run the
redirect loop). -/
def mergeRec (h : Nat → Nat) : Nat → TableState → Nat → Nat → Option (TableState × Nat)
  | 0, _, _, _ => none
  | fuel + 1, st, key, count =>
    let idx := keyToDirectoryIndex h st.dir key
    let mi := idx ^^^ (st.dir.getLocalHighBit idx >>> 1)
    let bpid := st.dir.bucketPageIds idx
    let mpid := st.dir.bucketPageIds mi
    let bEmpty := (st.buckets bpid).isEmpty
    let mEmpty := (st.buckets mpid).isEmpty
    if (!bEmpty && !mEmpty) || (st.dir.localDepths idx ≤ 0) ||
        (st.dir.localDepths idx ≠ st.dir.localDepths mi) then
      some (st, count)
    else
      let j0 := st.dir.findFirstBucket bpid
      match mergeLoop fuel st.dir bEmpty mEmpty j0 with
      | none => none
      | some d1 =>
        match (if d1.canShrink && decide (1 < d1.globalDepth) then
                 match shrinkLoopGo (d1.size / 2) (d1.size - d1.size / 2) d1 with
                 | none => none
                 | some ds => some ds.decrGlobalDepth
               else some d1) with
        | none => none
        | some d2 => mergeRec h fuel { st with dir := d2 } key (count + 1)

/-- Remove (lines 250-285): remove from the target bucket, then, when the
bucket page is empty, its local depth is positive and the merge image
carries the same local depth, call Merge. Returns the state, the result of
the remove and the number of coalescing passes Merge performed. -/
def tableRemove (h : Nat → Nat) (fuel : Nat) (st : TableState) (key value : Nat) :
    Option (TableState × Bool × Nat) :=
  let idx := keyToDirectoryIndex h st.dir key
  let pid := st.dir.bucketPageIds idx
  let r := (st.buckets pid).remove key value
  let st1 : TableState := { st with buckets := upd st.buckets pid r.1 }
  let mi := idx ^^^ (st1.dir.getLocalHighBit idx >>> 1)
  if r.1.isEmpty && decide (0 < st1.dir.localDepths idx) &&
      (st1.dir.localDepths idx == st1.dir.localDepths mi) then
    match mergeRec h fuel st1 key 0 with
    | none => none
    | some (st2, c) => some (st2, r.2, c)
  else some (st1, r.2, 0)

/-- Number of coalescing passes a remove performs (none when a merge loop
or the merge recursion failed to finish within the fuel). -/
def removeMergeCount (h : Nat → Nat) (fuel : Nat) (st : TableState) (key value : Nat) : Option Nat :=
  match tableRemove h fuel st key value with
  | none => none
  | some (_, _, c) => some c

/-! ### Claim C3: GetLocalHighBit -/

set_option maxRecDepth 10000 in
/-- Computation of what GetLocalHighBit actually returns, by exhausting all
global depths up to MAX_GD and all in-range indices: it flips the topmost
global-depth bit of the index. -/
theorem localHighBitCore_eq_xor_aux :
    ∀ gd < 10, ∀ idx < 2 ^ gd, 1 ≤ gd → localHighBitCore gd idx = idx ^^^ 2 ^ (gd - 1) := by
  decide

/-- Directory used as concrete input for the GetLocalHighBit claims: global
depth 2, two bucket pages 5 and 6 each pointed to by two slots of local
depth 1 (the directory satisfies VerifyIntegrity). -/
def dirC3 : Directory :=
  { pageId := 0, globalDepth := 2, localDepths := fun _ => 1,
    bucketPageIds := fun i => if i % 2 = 0 then 5 else 6 }

/-- C3, counterexample: at slot 1 of dirC3 (local depth 1, global depth 2)
GetLocalHighBit returns 3, not 1 << local_depth = 2, and the split image
idx ^ GetLocalHighBit(idx) is 2, not idx ^ (1 << local_depth) = 3. -/
theorem getLocalHighBit_is_not_localDepth_shift :
    ¬ (dirC3.getLocalHighBit 1 = 1 <<< dirC3.localDepths 1 ∧
       1 ^^^ dirC3.getLocalHighBit 1 = 1 ^^^ (1 <<< dirC3.localDepths 1)) := by
  decide

/-- C3 (amended): for every directory with 1 <= global_depth <= MAX_GD = 9
and every in-range index, get_local_high_bit(idx) returns idx with bit
(global_depth - 1) flipped, i.e. idx XOR 2^(global_depth - 1) — it is a
sibling index, not the value 1 << local_depths[idx] — and consequently the
split image idx XOR get_local_high_bit(idx) is the constant
2^(global_depth - 1). -/
theorem getLocalHighBit_flips_top_bit (d : Directory) (idx : Nat)
    (h1 : 1 ≤ d.globalDepth) (h2 : d.globalDepth ≤ 9) (h3 : idx < 2 ^ d.globalDepth) :
    d.getLocalHighBit idx = idx ^^^ 2 ^ (d.globalDepth - 1) ∧
    idx ^^^ d.getLocalHighBit idx = 2 ^ (d.globalDepth - 1) := by
  have hmain := localHighBitCore_eq_xor_aux d.globalDepth (by omega) idx h3 h1
  refine ⟨hmain, ?_⟩
  rw [Directory.getLocalHighBit] at *
  rw [hmain, ← Nat.xor_assoc, Nat.xor_self, Nat.zero_xor]

/-- Witness for the amended C3 theorem at dirC3, slot 1. -/
theorem getLocalHighBit_flips_top_bit_witness :
    1 ≤ dirC3.globalDepth ∧ dirC3.globalDepth ≤ 9 ∧ 1 < 2 ^ dirC3.globalDepth ∧
    (dirC3.getLocalHighBit 1 = 1 ^^^ 2 ^ (dirC3.globalDepth - 1) ∧
     1 ^^^ dirC3.getLocalHighBit 1 = 2 ^ (dirC3.globalDepth - 1)) :=
  ⟨by decide, by decide, by decide,
   getLocalHighBit_flips_top_bit dirC3 1 (by decide) (by decide) (by decide)⟩

/-! ### Claim C9: IsEmpty -/

set_option maxRecDepth 10000 in
/-- Exhaustive check relating a bitmap byte to its bits. -/
theorem byteZero_iff_bits_aux : ∀ v < 256, (v = 0 ↔ ∀ j < 8, v &&& 2 ^ j = 0) := by
  decide

/-- Bucket used as concrete input for the IsEmpty claim: slots 0..7 are
tombstones (occupied, not readable) and slot 8 holds a live record; such a
bucket arises from inserting nine records and removing the first eight. -/
def bucketC9 : Bucket :=
  { occupiedBytes := fun j => if j = 0 then 255 else if j = 1 then 1 else 0,
    readableBytes := fun j => if j = 1 then 1 else 0,
    pairs := fun i => (i, i) }

set_option maxRecDepth 2000 in
/-- C9, counterexample: bucketC9 has a readable slot (slot 8), yet IsEmpty
returns true, because IsEmpty inspects only byte 0 of the readable bitmap. -/
theorem isEmpty_ignores_higher_slots :
    ¬ ((bucketC9.isEmpty = true) ↔ ∀ i < BUCKET_ARRAY_SIZE, bucketC9.isReadable i = false) := by
  decide

/-- C9 (amended): is_empty returns true iff none of the first eight slots
(the slots of byte 0 of the readable bitmap) is readable; slots 8 and above
are not consulted. Stated for any bucket whose byte 0 is a byte value. -/
theorem isEmpty_iff_first_byte_clear (b : Bucket) (hb : b.readableBytes 0 < 256) :
    b.isEmpty = true ↔ ∀ i < 8, b.isReadable i = false := by
  rw [Bucket.isEmpty, beq_iff_eq]
  constructor
  · intro h0 i hi
    rw [Bucket.isReadable, Nat.div_eq_of_lt hi, h0]
    simp
  · intro hall
    refine (byteZero_iff_bits_aux (b.readableBytes 0) hb).mpr ?_
    intro j hj
    have hr := hall j hj
    rw [Bucket.isReadable, Nat.div_eq_of_lt hj] at hr
    have hm : bitMask j = 2 ^ j := by
      rw [bitMask, Nat.mod_eq_of_lt hj]
    rw [hm] at hr
    simpa using hr

/-- Witness for the amended C9 theorem at bucketC9. -/
theorem isEmpty_iff_first_byte_clear_witness :
    bucketC9.readableBytes 0 < 256 ∧
    (bucketC9.isEmpty = true ↔ ∀ i < 8, bucketC9.isReadable i = false) :=
  ⟨by decide, isEmpty_iff_first_byte_clear bucketC9 (by decide)⟩

/-! ### Claims C1 and C2: the split path -/

/-- Identity hash function used for the concrete <int,int> table runs. -/
def hId : Nat → Nat := fun n => n

/-- Directory of a freshly constructed table: global depth 0, slot 0
pointing at bucket page 1 (as set up by the ExtendibleHashTable
constructor). -/
def dirInit : Directory := (Directory.zero.setBucketPageId 0 1).setLocalDepth 0 0

/-- Bucket holding the 496 pairs (i, i): every slot occupied and readable.
This is the content of bucket page 1 after inserting the pairs (0,0) ..
(495,495) into a fresh table (all keys hash to directory slot 0 while the
global depth is 0). -/
def fullBucket : Bucket :=
  { occupiedBytes := fun j => if j < 62 then 255 else 0,
    readableBytes := fun j => if j < 62 then 255 else 0,
    pairs := fun i => (i, i) }

/-- Table state whose single bucket page is full: the state of a fresh
table after the 496 inserts described at fullBucket. -/
def fullTableState : TableState :=
  { dir := dirInit,
    buckets := fun pid => if pid = 1 then fullBucket else Bucket.zero,
    nextPageId := 2 }

/-- Directory after the doubling phase of the first split: global depth 1,
both slots pointing at bucket page 1. -/
def dirDoubled : Directory := splitDoublePhase dirInit 0

/-- Stall of the rewrite loop: on a directory of global depth 1, once
bucket_idx reaches 1 = 2^(global_depth - 1) the stride
GetLocalHighBit(bucket_idx) is 0, the loop body keeps rewriting slot 1 and
bucket_idx never changes, so the loop never exits, whatever the fuel. -/
theorem splitLoop_stall (pid : Nat) :
    ∀ (fuel : Nat) (d : Directory), d.globalDepth = 1 → splitLoop fuel d pid 1 = none := by
  intro fuel
  induction fuel with
  | zero => intro d _; rfl
  | succ f ih =>
    intro d hd
    have hsize : 1 < d.size := by rw [Directory.size, hd]; decide
    have hbody1 : (splitLoopBody d pid 1).1.globalDepth = 1 := by
      rw [splitLoopBody]
      simp only [Directory.setBucketPageId, Directory.incrLocalDepth]
      exact hd
    have hbody2 : (splitLoopBody d pid 1).2 = 1 := by
      rw [splitLoopBody]
      simp only [Directory.setBucketPageId, Directory.incrLocalDepth, Directory.getLocalHighBit]
      rw [hd]
      decide
    rw [splitLoop, if_pos hsize]
    show splitLoop f (splitLoopBody d pid 1).1 pid (splitLoopBody d pid 1).2 = none
    rw [hbody2]
    exact ih _ hbody1

/-- Entry of the rewrite loop of the first split: from bucket_idx = 0 the
first iteration moves to the stalled configuration at bucket_idx = 1. -/
theorem splitLoop_fromZero_none : ∀ fuel, splitLoop fuel dirDoubled 2 0 = none := by
  intro fuel
  cases fuel with
  | zero => rfl
  | succ g =>
    have hb1 : (splitLoopBody dirDoubled 2 0).1.globalDepth = 1 := by decide
    have hb2 : (splitLoopBody dirDoubled 2 0).2 = 1 := by decide
    rw [splitLoop, if_pos (by decide)]
    show splitLoop g (splitLoopBody dirDoubled 2 0).1 2 (splitLoopBody dirDoubled 2 0).2 = none
    rw [hb2]
    exact splitLoop_stall 2 g _ hb1

set_option maxRecDepth 100000 in
/-- C1 (code bug): on a fresh table filled with the 496 pairs (i,i), the
next insert (key 496) finds its bucket full, enters SplitInsert, and the
directory rewrite loop never exits: the insert never returns, for any
fuel. The sequence of calls therefore cannot maintain the multiset through
a split, and no get_value can observe it. -/
theorem insert_after_fill_never_returns :
    ∀ fuel, tableInsertGo hId fuel fullTableState 496 496 = none := by
  intro fuel
  cases fuel with
  | zero => rfl
  | succ f =>
    show afterSplitLoop hId (tableInsertGo hId f) f
        { dir := dirDoubled,
          buckets := upd fullTableState.buckets 2 Bucket.zero, nextPageId := 3 }
        496 496 1 2 (splitLoop f dirDoubled 2 0) = none
    rw [splitLoop_fromZero_none f]
    rfl

/-- C2 (code bug): the first split-triggering insert never returns (first
conjunct, the rewrite loop of SplitInsert diverges from the doubled
directory), and the directory state left behind after two iterations of
the rewrite loop violates VerifyIntegrity: local_depths_[1] = 3 exceeds
global_depth_ = 1. -/
theorem split_breaks_verifyIntegrity :
    (∀ fuel, splitLoop fuel dirDoubled 2 0 = none) ∧
    Directory.verifyIntegrity (splitLoopIter 2 dirDoubled 2 0).1 = false :=
  ⟨splitLoop_fromZero_none, by decide⟩

/-! ### Claim C5: merges chain -/

/-- Concrete table used for the merge claims: global depth 2, four distinct
bucket pages 10..13 of local depth 2 (VerifyIntegrity holds), where bucket
10 (slot 0) holds the single pair (4,7), bucket 11 (slot 1) is empty and
buckets 12, 13 hold one record each. -/
def stateC5 : TableState :=
  { dir := { pageId := 0, globalDepth := 2, localDepths := fun _ => 2,
             bucketPageIds := fun i =>
               if i = 0 then 10 else if i = 1 then 11 else if i = 2 then 12 else 13 },
    buckets := fun pid =>
      if pid = 10 then
        { occupiedBytes := fun j => if j = 0 then 1 else 0,
          readableBytes := fun j => if j = 0 then 1 else 0,
          pairs := fun i => if i = 0 then (4, 7) else (0, 0) }
      else if pid = 12 then
        { occupiedBytes := fun j => if j = 0 then 1 else 0,
          readableBytes := fun j => if j = 0 then 1 else 0,
          pairs := fun i => if i = 0 then (2, 9) else (0, 0) }
      else if pid = 13 then
        { occupiedBytes := fun j => if j = 0 then 1 else 0,
          readableBytes := fun j => if j = 0 then 1 else 0,
          pairs := fun i => if i = 0 then (3, 9) else (0, 0) }
      else Bucket.zero,
    nextPageId := 14 }

/-- C5, counterexample: removing (4,7) from stateC5 empties bucket 10; the
remove then performs two coalescing merges, not at most one — Merge
coalesces slot 0 into bucket 11 and its unconditional tail call coalesces
again — so the claim "at most one merge per remove, merges never chain" is
false at this input. -/
theorem remove_performs_two_merges : removeMergeCount hId 10 stateC5 4 7 = some 2 ∧ ¬ (2 ≤ 1) :=
  ⟨rfl, by decide⟩

/-- C5 (amended): Merge re-invokes itself unconditionally after a
coalescing pass (line 369 of the source), so a single remove performs
merges until the entry precondition fails; on stateC5 the remove of (4,7)
performs exactly two coalescing merges, for every sufficient fuel. -/
theorem remove_merges_chain : ∀ f, removeMergeCount hId (f + 6) stateC5 4 7 = some 2 :=
  fun _ => rfl

/-! ### Claim C4: the MAX_GD capacity guard -/

set_option maxRecDepth 10000 in
/-- Exhaustive bound on GetLocalHighBit for all global depths up to MAX_GD
and all in-range indices: the value never exceeds 511. -/
theorem localHighBitCore_le_aux : ∀ gd < 10, ∀ idx < 2 ^ gd, localHighBitCore gd idx ≤ 511 := by
  decide

/-- Directory at capacity: global depth 9 = MAX_GD, 512 distinct bucket
pages, every local depth 9. -/
def dirCapacity : Directory :=
  { pageId := 0, globalDepth := 9, localDepths := fun _ => 9,
    bucketPageIds := fun i => i + 20 }

/-- C4 (code bug): the capacity guard of SplitInsert
(GetLocalHighBit(bucket_idx) > DIRECTORY_ARRAY_SIZE, the only path that
returns false "reaching the directory page max capacity") can never fire
while the global depth is at most MAX_GD = 9 (first conjunct), so at a
directory of global depth 9 whose target bucket has local depth 9 the
split does not return false unchanged: it proceeds and increments the
global depth to 10 (second conjunct), doubling past DIRECTORY_ARRAY_SIZE. -/
theorem splitInsert_capacity_guard_dead :
    (∀ (d : Directory) (idx : Nat), d.globalDepth ≤ 9 → idx < d.size →
        splitCapacityGuard d idx = false) ∧
    (splitCapacityGuard dirCapacity 5 = false ∧
     (splitDoublePhase dirCapacity 5).globalDepth = 10) := by
  constructor
  · intro d idx h9 hidx
    have hsz : d.size = 2 ^ d.globalDepth := by
      rw [Directory.size]
      exact Nat.mod_eq_of_lt
        (lt_of_le_of_lt (Nat.pow_le_pow_right (by norm_num) h9) (by norm_num))
    rw [hsz] at hidx
    have hle := localHighBitCore_le_aux d.globalDepth (by omega) idx hidx
    simp only [splitCapacityGuard, DIRECTORY_ARRAY_SIZE, decide_eq_false_iff_not, not_lt,
      Directory.getLocalHighBit]
    omega
  · constructor
    · rfl
    · set_option maxRecDepth 20000 in decide

/-- Witness for the C4 theorem at dirCapacity, slot 5. -/
theorem splitInsert_capacity_guard_dead_witness :
    dirCapacity.globalDepth ≤ 9 ∧ 5 < dirCapacity.size ∧
    splitCapacityGuard dirCapacity 5 = false :=
  ⟨by decide, by decide, splitInsert_capacity_guard_dead.1 dirCapacity 5 (by decide) (by decide)⟩

/-! ### LRU replacer (src/buffer/lru_replacer.cpp)

The replacer keeps a doubly-linked list of unpinned frames threaded through
the array frames_ of (prev, next) pairs, a membership set pinned_frames_, a
size_t counter and the list head. -/

/-- State of one LRUReplacer. -/
structure LRUState where
  size : Nat
  head : Nat
  frames : Nat → Nat × Nat
  pinned : Nat → Bool
  numPages : Nat

/-- LRUReplacer constructor: every frame pinned, frames_[i] = (i, i),
head_ = num_pages. -/
def lruInit (numPages : Nat) : LRUState :=
  { size := 0, head := numPages, frames := fun i => (i, i),
    pinned := fun i => decide (i < numPages), numPages := numPages }

/-- Victim: pop the least-recently-used frame from the tail of the list. -/
def lruVictim (r : LRUState) : LRUState × Option Nat :=
  if r.size = 0 then (r, none)
  else
    let sz := usub1 r.size
    let tail := (r.frames r.head).1
    let ntail := (r.frames tail).1
    let f1 := upd r.frames r.head (ntail, (r.frames r.head).2)
    let f2 := upd f1 ntail ((f1 ntail).1, r.head)
    let f3 := upd f2 tail (tail, tail)
    let head1 := if sz = 0 then r.numPages else r.head
    ({ r with size := sz, head := head1, frames := f3, pinned := upd r.pinned tail true },
     some tail)

/-- Pin: remove a frame from the list if present; idempotent otherwise. -/
def lruPin (r : LRUState) (f : Nat) : LRUState :=
  if r.pinned f then r
  else
    let sz := usub1 r.size
    let prev := (r.frames f).1
    let next := (r.frames f).2
    let f1 := upd r.frames prev ((r.frames prev).1, next)
    let f2 := upd f1 next (prev, (f1 next).2)
    let f3 := upd f2 f (f, f)
    let head1 :=
      if r.head = f then (if 0 < sz then next else r.numPages + 1) else r.head
    { r with size := sz, head := head1, frames := f3, pinned := upd r.pinned f true }

/-- Unpin: insert a frame at the most-recently-used end if absent. -/
def lruUnpin (r : LRUState) (f : Nat) : LRUState :=
  if !(r.pinned f) then r
  else
    let sz := uadd1 r.size
    let fr3 :=
      if r.head < r.numPages then
        let tail := (r.frames r.head).1
        let f1 := upd r.frames tail ((r.frames tail).1, f)
        let f2 := upd f1 r.head (f, (f1 r.head).2)
        upd f2 f (tail, r.head)
      else r.frames
    { r with size := sz, head := f, frames := fr3, pinned := upd r.pinned f false }

/-! ### Buffer pool manager instance (src/buffer/buffer_pool_manager_instance.cpp)

Page ids are page_id_t (int32, INVALID_PAGE_ID = -1) and are modelled as
Int; frame indices and the allocation counter are Nats. Page data is
modelled opaquely: the claims about this component concern metadata, not
byte contents. -/

/-- Opaque page payload: zeroed memory, a directory page, a bucket page, or
bytes read back from disk. -/
inductive PData where
  | zeroed : PData
  | dirPage : Directory → PData
  | bucketPage : Bucket → PData

/-- One frame of the pool: the Page object metadata. A fresh Page has
page_id_ = INVALID_PAGE_ID = -1, pin_count_ = 0, is_dirty_ = false. -/
structure Frame where
  pageId : Int
  pinCount : Int
  dirty : Bool
  payload : PData

/-- Modelled from the spec: the Page constructor lives in a missing
header; per the spec's data model a fresh page has id INVALID_PAGE_ID = -1,
pin count 0, clean, zeroed bytes. -/
def Frame.fresh : Frame :=
  { pageId := -1, pinCount := 0, dirty := false, payload := PData.zeroed }

/-- State of one BufferPoolManagerInstance. -/
structure InstState where
  poolSize : Nat
  numInstances : Nat
  instanceIndex : Nat
  nextPageId : Nat
  frames : Nat → Frame
  pageTable : List (Int × Nat)
  freeList : List Nat
  repl : LRUState
  disk : Int → PData

/-- Lookup in the page table (std::unordered_map find). -/
def lookupPT : List (Int × Nat) → Int → Option Nat
  | [], _ => none
  | (k, f) :: r, id => if k = id then some f else lookupPT r id

/-- Erase from the page table (std::unordered_map erase). -/
def erasePT (l : List (Int × Nat)) (id : Int) : List (Int × Nat) :=
  l.filter fun p => p.1 != id

/-- BufferPoolManagerInstance constructor: every frame in the free list,
next_page_id_ = instance_index. -/
def instInit (poolSize numInstances instanceIndex : Nat) : InstState :=
  { poolSize := poolSize, numInstances := numInstances, instanceIndex := instanceIndex,
    nextPageId := instanceIndex, frames := fun _ => Frame.fresh,
    pageTable := [], freeList := List.range poolSize,
    repl := lruInit poolSize, disk := fun _ => PData.zeroed }

/-- Victim-frame selection shared by NewPgImp and FetchPgImp: pop the free
list first, else ask the replacer. The ValidatePageId assertion of
AllocatePage (id mod num_instances == instance_index) holds by construction
along every run from instInit and is elided. -/
def pickFrame (st : InstState) : Option (Nat × InstState) :=
  match st.freeList with
  | f :: rest => some (f, { st with freeList := rest })
  | [] =>
    match lruVictim st.repl with
    | (r1, some f) => some (f, { st with repl := r1 })
    | (_, none) => none

/-- NewPgImp: select a frame, flush it if dirty, retarget the page table,
allocate the next id, reset the page metadata with pin count 1. -/
def newPg (st : InstState) : InstState × Option Int :=
  match pickFrame st with
  | none => (st, none)
  | some (f, st1) =>
    let st2 := { st1 with repl := lruPin st1.repl f }
    let fr := st2.frames f
    let disk3 := if fr.dirty then updI st2.disk fr.pageId fr.payload else st2.disk
    let st3 := { st2 with disk := disk3 }
    let st4 := { st3 with pageTable := erasePT st3.pageTable fr.pageId }
    let id : Int := Int.ofNat st4.nextPageId
    let st5 := { st4 with nextPageId := st4.nextPageId + st4.numInstances }
    ({ st5 with
        pageTable := (id, f) :: st5.pageTable,
        frames := upd st5.frames f
          { pageId := id, pinCount := 1, dirty := false, payload := PData.zeroed } },
     some id)

/-- FetchPgImp: on a hit increment the pin count and pin the frame;
otherwise select a frame, flush it if dirty, retarget the page table and
read the page from disk with pin count 1. Returns the frame index holding
the page (the borrowed pointer). -/
def fetchPg (st : InstState) (id : Int) : InstState × Option Nat :=
  match lookupPT st.pageTable id with
  | some f =>
    ({ st with
        frames := upd st.frames f { (st.frames f) with pinCount := (st.frames f).pinCount + 1 },
        repl := lruPin st.repl f }, some f)
  | none =>
    match pickFrame st with
    | none => (st, none)
    | some (f, st1) =>
      let st2 := { st1 with repl := lruPin st1.repl f }
      let fr := st2.frames f
      let disk3 := if fr.dirty then updI st2.disk fr.pageId fr.payload else st2.disk
      let st3 := { st2 with disk := disk3 }
      let st4 := { st3 with pageTable := (id, f) :: erasePT st3.pageTable fr.pageId }
      ({ st4 with
          frames := upd st4.frames f
            { pageId := id, pinCount := 1, dirty := false, payload := st4.disk id } },
       some f)

/-- UnpinPgImp, in the exact order of the source: residency check, then the
dirty-flag write (before the pin-count check), then the pin-count check,
then the decrement and possible replacer unpin. -/
def unpinPg (st : InstState) (id : Int) (isDirty : Bool) : InstState × Bool :=
  match lookupPT st.pageTable id with
  | none => (st, false)
  | some f =>
    let st1 :=
      if isDirty then
        { st with frames := upd st.frames f { (st.frames f) with dirty := isDirty } }
      else st
    if (st1.frames f).pinCount ≤ 0 then (st1, false)
    else
      let st2 :=
        { st1 with
            frames := upd st1.frames f
              { (st1.frames f) with pinCount := (st1.frames f).pinCount - 1 } }
      if (st2.frames f).pinCount = 0 then
        ({ st2 with repl := lruUnpin st2.repl f }, true)
      else (st2, true)

/-- FlushPgImp: write the frame to disk and clear its dirty flag,
regardless of its dirty state. -/
def flushPg (st : InstState) (id : Int) : InstState × Bool :=
  match lookupPT st.pageTable id with
  | none => (st, false)
  | some f =>
    ({ st with
        disk := updI st.disk id (st.frames f).payload,
        frames := upd st.frames f { (st.frames f) with dirty := false } }, true)

/-- Flush of one page-table entry, the body of FlushAllPgsImp. -/
def flushStep (s : InstState) (p : Int × Nat) : InstState :=
  { s with
      disk := updI s.disk p.1 (s.frames p.2).payload,
      frames := upd s.frames p.2 { (s.frames p.2) with dirty := false } }

/-- FlushAllPgsImp: flush every page-table entry (iteration order modelled
as the list order of the page table). -/
def flushAllPgs (st : InstState) : InstState :=
  st.pageTable.foldl flushStep st

/-- DeletePgImp: absent pages delete trivially; pinned pages refuse; else
flush if dirty, drop the mapping, reset the frame and return it to the
free list. -/
def deletePg (st : InstState) (id : Int) : InstState × Bool :=
  match lookupPT st.pageTable id with
  | none => (st, true)
  | some f =>
    if 0 < (st.frames f).pinCount then (st, false)
    else
      let disk1 :=
        if (st.frames f).dirty then updI st.disk id (st.frames f).payload else st.disk
      let st1 := { st with disk := disk1 }
      let st2 := { st1 with pageTable := erasePT st1.pageTable id }
      let st3 := { st2 with frames := upd st2.frames f Frame.fresh }
      ({ st3 with repl := lruPin st3.repl f, freeList := st3.freeList ++ [f] }, true)

/-! ### Parallel buffer pool manager (src/buffer/parallel_buffer_pool_manager.cpp) -/

/-- State of one ParallelBufferPoolManager: the rotating start index and
the lazily created instances. -/
structure ParState where
  numInstances : Nat
  poolSize : Nat
  startInstance : Nat
  bpms : Nat → Option InstState

/-- ParallelBufferPoolManager constructor. -/
def parInit (numInstances poolSize : Nat) : ParState :=
  { numInstances := numInstances, poolSize := poolSize, startInstance := 0,
    bpms := fun _ => none }

/-- Update of the instance array. -/
def updInst (f : Nat → Option InstState) (i : Nat) (x : InstState) : Nat → Option InstState :=
  fun j => if j = i then some x else f j

/-- First loop of NewPgImp: while start_instance_ < num_instances_, create
the instance if missing, try NewPage on it; return on success, advance
start_instance_ on failure. The fuel is an upper bound on the remaining
iterations. -/
def parWhileLoop : Nat → ParState → ParState × Option Int
  | 0, ps => (ps, none)
  | fuel + 1, ps =>
    if ps.startInstance < ps.numInstances then
      let inst :=
        match ps.bpms ps.startInstance with
        | some b => b
        | none => instInit ps.poolSize ps.numInstances ps.startInstance
      let r := newPg inst
      let ps1 := { ps with bpms := updInst ps.bpms ps.startInstance r.1 }
      match r.2 with
      | some id => (ps1, some id)
      | none => parWhileLoop fuel { ps1 with startInstance := ps1.startInstance + 1 }
    else (ps, none)

/-- Second loop of NewPgImp: try every instance from 0. Reached only after
the first loop has run start_instance_ up to num_instances_, which created
every instance; an instance still missing would be a null dereference in
the C++ and is modelled as failure. -/
def parFallbackLoop (ps : ParState) : Nat → Nat → ParState × Option Int
  | _, 0 => (ps, none)
  | i, cnt + 1 =>
    match ps.bpms i with
    | none => (ps, none)
    | some b =>
      let r := newPg b
      let ps1 := { ps with bpms := updInst ps.bpms i r.1 }
      match r.2 with
      | some id => (ps1, some id)
      | none => parFallbackLoop ps1 (i + 1) cnt

/-- NewPgImp of the parallel pool: the while loop, then the fallback scan.
The while loop needs at most num_instances - start_instance iterations
before its condition fails, so that fuel bound is exact. -/
def parNewPage (ps : ParState) : ParState × Option Int :=
  match parWhileLoop (ps.numInstances - ps.startInstance + 1) ps with
  | (ps1, some id) => (ps1, some id)
  | (ps1, none) => parFallbackLoop ps1 0 ps1.numInstances

/-- Run n successive NewPage calls on a parallel pool, collecting the
returned page ids in order. -/
def parRun : Nat → ParState → ParState × List (Option Int)
  | 0, ps => (ps, [])
  | n + 1, ps =>
    let r := parNewPage ps
    let rest := parRun n r.1
    (rest.1, r.2 :: rest.2)

/-! ### Operation sequences on one BufferPoolManagerInstance (claim C8) -/

/-- Public operations of a BufferPoolManagerInstance. -/
inductive Op where
  | newPage : Op
  | fetchPage : Int → Op
  | unpinPage : Int → Bool → Op
  | flushPage : Int → Op
  | flushAll : Op
  | deletePage : Int → Op

/-- Application of one operation to the instance state (the returned value
is discarded). -/
def applyOp (st : InstState) : Op → InstState
  | Op.newPage => (newPg st).1
  | Op.fetchPage id => (fetchPg st id).1
  | Op.unpinPage id d => (unpinPg st id d).1
  | Op.flushPage id => (flushPg st id).1
  | Op.flushAll => flushAllPgs st
  | Op.deletePage id => (deletePg st id).1

/-- Run of a sequence of operations from a state. -/
def runOps (ops : List Op) (st : InstState) : InstState :=
  ops.foldl applyOp st

/-! ### ExtendibleHashTable constructor (claim C10)

The constructor allocates the directory page and the first bucket page and
asserts the ids 0 and 1; a failed assertion aborts the process and is
modelled as Except.error. The directory content is read through the page
payload: a zeroed page reinterprets as the all-zero directory. -/

/-- Reinterpretation of a page payload as a HashTableDirectoryPage. -/
def interpDir : PData → Directory
  | PData.dirPage d => d
  | _ => Directory.zero

/-- ExtendibleHashTable constructor (lines 25-52 of
extendible_hash_table.cpp) against a BufferPoolManagerInstance: NewPage for
the directory (assert id 0), unpin; NewPage for the first bucket (assert
id 1), unpin; fetch the directory page (assert global depth 0), set its
page id, point slot 0 at the bucket page with local depth 0, unpin dirty.
Returns the final pool state and the directory page content. -/
def hashTableCtor (st : InstState) : Except String (InstState × Directory) :=
  match newPg st with
  | (_, none) => Except.error "assert: NewPage(directory) returned nullptr"
  | (st1, some did) =>
    if did = 0 then
      match unpinPg st1 did false with
      | (_, false) => Except.error "assert: UnpinPage(directory) failed"
      | (st2, true) =>
        match newPg st2 with
        | (_, none) => Except.error "assert: NewPage(bucket) returned nullptr"
        | (st3, some bid) =>
          if bid = 1 then
            match unpinPg st3 bid false with
            | (_, false) => Except.error "assert: UnpinPage(bucket) failed"
            | (st4, true) =>
              match fetchPg st4 0 with
              | (_, none) => Except.error "FetchDirectoryPage returned nullptr"
              | (st5, some f) =>
                let d0 := interpDir ((st5.frames f).payload)
                if d0.globalDepth = 0 then
                  let d1 := ({ d0 with pageId := 0 }.setBucketPageId 0 1).setLocalDepth 0 0
                  let st6 :=
                    { st5 with
                        frames := upd st5.frames f
                          { (st5.frames f) with payload := PData.dirPage d1 } }
                  match unpinPg st6 (Int.ofNat d1.pageId) true with
                  | (_, false) => Except.error "assert: UnpinPage(directory, dirty) failed"
                  | (st7, true) => Except.ok (st7, d1)
                else Except.error "assert: GetGlobalDepth() == 0 failed"
          else Except.error "assert: bucket_page_id == 1 failed"
    else Except.error "assert: directory_page_id_ == 0 failed"

/-! ### Claim C6: round-robin routing of new_page -/

/-- C6 (code bug): four successive new_page calls on a fresh parallel pool
with 4 instances all allocate from instance 0 — the ids are 0, 4, 8, 12,
every one of them 0 mod 4 — and the start cursor is still 0 afterwards: on
success the code neither advances nor wraps the cursor, so the ids mod 4
do not enumerate 0,1,2,3 (the second id is 4, and 4 mod 4 = 0, not 1). -/
theorem parallel_newPage_sticks_to_instance_zero :
    (parRun 4 (parInit 4 10)).2 = [some 0, some 4, some 8, some 12] ∧
    (parRun 4 (parInit 4 10)).1.startInstance = 0 ∧
    ((4 : Int) % 4 = 0 ∧ ¬ ((4 : Int) % 4 = 1)) := by
  refine ⟨rfl, rfl, by decide, by decide⟩

/-! ### Claim C7: failing unpin and the dirty flag -/

/-- State with page 0 resident at pin count 0 and clean: a fresh pool after
new_page and a successful unpin. -/
def stateC7 : InstState := (unpinPg (newPg (instInit 10 1 0)).1 0 false).1

/-- C7, counterexample: unpin_page(0, true) on stateC7 returns false (the
pin count is already 0), yet the page's dirty flag has been set — the
dirty-flag write precedes the pin-count check, so a failing unpin is not
state-preserving. -/
theorem unpin_failure_sets_dirty_flag :
    (unpinPg stateC7 0 true).2 = false ∧
    ((unpinPg stateC7 0 true).1.frames 0).dirty = true ∧
    (stateC7.frames 0).dirty = false :=
  ⟨rfl, rfl, rfl⟩

/-- State delta of a failing unpin on a resident page: only the dirty flag
of the holding frame is (possibly) set. -/
def setDirtyOnly (st : InstState) (f : Nat) (isDirty : Bool) : InstState :=
  if isDirty then
    { st with frames := upd st.frames f { (st.frames f) with dirty := isDirty } }
  else st

/-- C7 (amended): when unpin_page(id, is_dirty) returns false because id is
not resident, the state is unchanged; when it returns false because the
resident page's pin count is at most 0, everything except the dirty flag
is unchanged, but the dirty flag of the holding frame is set whenever
is_dirty is true, because the dirty update precedes the pin-count check. -/
theorem unpin_false_paths (st : InstState) (id : Int) (isDirty : Bool) :
    (lookupPT st.pageTable id = none → unpinPg st id isDirty = (st, false)) ∧
    (∀ f, lookupPT st.pageTable id = some f → (st.frames f).pinCount ≤ 0 →
      unpinPg st id isDirty = (setDirtyOnly st f isDirty, false)) := by
  constructor
  · intro h
    rw [unpinPg, h]
  · intro f hf hpin
    cases isDirty with
    | false =>
      rw [unpinPg, hf]
      show (if ((setDirtyOnly st f false).frames f).pinCount ≤ 0
            then (setDirtyOnly st f false, false) else _) = (setDirtyOnly st f false, false)
      have hpin3 : ((setDirtyOnly st f false).frames f).pinCount ≤ 0 := hpin
      rw [if_pos hpin3]
    | true =>
      rw [unpinPg, hf]
      show (if ((setDirtyOnly st f true).frames f).pinCount ≤ 0
            then (setDirtyOnly st f true, false) else _) = (setDirtyOnly st f true, false)
      have hpin2 : ((setDirtyOnly st f true).frames f).pinCount ≤ 0 := by
        show ((upd st.frames f { (st.frames f) with dirty := true }) f).pinCount ≤ 0
        rw [upd_same]
        exact hpin
      rw [if_pos hpin2]

/-- Witness for the amended C7 theorem at stateC7 (page 0, frame 0, pin
count 0). -/
theorem unpin_false_paths_witness :
    lookupPT stateC7.pageTable 0 = some 0 ∧ (stateC7.frames 0).pinCount ≤ 0 ∧
    unpinPg stateC7 0 true = (setDirtyOnly stateC7 0 true, false) :=
  ⟨rfl, by decide, (unpin_false_paths stateC7 0 true).2 0 rfl (by decide)⟩

/-- Invariant: every frame's pin count is non-negative. -/
def PinInv (st : InstState) : Prop := ∀ i, 0 ≤ (st.frames i).pinCount

/-- Frame selection never changes the frames array. -/
theorem pickFrame_frames (st : InstState) :
    ∀ f st1, pickFrame st = some (f, st1) → st1.frames = st.frames := by
  intro f st1 h
  rw [pickFrame] at h
  cases hfl : st.freeList with
  | cons a rest =>
    rw [hfl] at h
    cases h
    rfl
  | nil =>
    rw [hfl] at h
    cases hv : lruVictim st.repl with
    | mk r1 o =>
      rw [hv] at h
      cases o with
      | some g => cases h; rfl
      | none => cases h

/-- NewPgImp preserves the invariant: the selected frame gets pin count 1,
the others are untouched. -/
theorem newPg_pinInv (st : InstState) (h : PinInv st) : PinInv (newPg st).1 := by
  rw [newPg]
  cases hpk : pickFrame st with
  | none => exact h
  | some p =>
    obtain ⟨f, st1⟩ := p
    have hfr := pickFrame_frames st f st1 hpk
    intro i
    dsimp only
    by_cases hi : i = f
    · subst hi
      rw [upd_same]
      exact zero_le_one
    · rw [upd_other _ _ _ _ hi, hfr]
      exact h i

/-- FetchPgImp preserves the invariant: a hit increments a non-negative pin
count, a miss sets the selected frame to pin count 1. -/
theorem fetchPg_pinInv (st : InstState) (id : Int) (h : PinInv st) :
    PinInv (fetchPg st id).1 := by
  rw [fetchPg]
  cases hl : lookupPT st.pageTable id with
  | some f =>
    intro i
    dsimp only
    by_cases hi : i = f
    · rw [hi, upd_same]
      have := h f
      show 0 ≤ (st.frames f).pinCount + 1
      omega
    · rw [upd_other _ _ _ _ hi]
      exact h i
  | none =>
    cases hpk : pickFrame st with
    | none => exact h
    | some p =>
      obtain ⟨f, st1⟩ := p
      have hfr := pickFrame_frames st f st1 hpk
      intro i
      dsimp only
      by_cases hi : i = f
      · rw [hi, upd_same]
        exact zero_le_one
      · rw [upd_other _ _ _ _ hi, hfr]
        exact h i

/-- UnpinPgImp preserves the invariant: the decrement happens only behind
the positive pin-count guard. -/
theorem unpinPg_pinInv (st : InstState) (id : Int) (d : Bool) (h : PinInv st) :
    PinInv (unpinPg st id d).1 := by
  rw [unpinPg]
  cases hl : lookupPT st.pageTable id with
  | none => exact h
  | some f =>
    have h1 : PinInv (setDirtyOnly st f d) := by
      intro i
      cases d with
      | false => exact h i
      | true =>
        show 0 ≤ ((upd st.frames f { (st.frames f) with dirty := true }) i).pinCount
        by_cases hi : i = f
        · rw [hi, upd_same]
          exact h f
        · rw [upd_other _ _ _ _ hi]
          exact h i
    show PinInv
      (if ((setDirtyOnly st f d).frames f).pinCount ≤ 0 then ((setDirtyOnly st f d), false)
       else
        (let st2 := { (setDirtyOnly st f d) with
            frames := upd (setDirtyOnly st f d).frames f
              { ((setDirtyOnly st f d).frames f) with
                  pinCount := ((setDirtyOnly st f d).frames f).pinCount - 1 } }
         if (st2.frames f).pinCount = 0 then ({ st2 with repl := lruUnpin st2.repl f }, true)
         else (st2, true))).1
    by_cases hp : ((setDirtyOnly st f d).frames f).pinCount ≤ 0
    · rw [if_pos hp]
      exact h1
    · rw [if_neg hp]
      have h2 : PinInv { (setDirtyOnly st f d) with
          frames := upd (setDirtyOnly st f d).frames f
            { ((setDirtyOnly st f d).frames f) with
                pinCount := ((setDirtyOnly st f d).frames f).pinCount - 1 } } := by
        intro i
        dsimp only
        by_cases hi : i = f
        · rw [hi, upd_same]
          show 0 ≤ ((setDirtyOnly st f d).frames f).pinCount - 1
          omega
        · rw [upd_other _ _ _ _ hi]
          exact h1 i
      dsimp only
      split
      · exact h2
      · exact h2

/-- FlushPgImp preserves the invariant: it only clears a dirty flag. -/
theorem flushPg_pinInv (st : InstState) (id : Int) (h : PinInv st) :
    PinInv (flushPg st id).1 := by
  rw [flushPg]
  cases hl : lookupPT st.pageTable id with
  | none => exact h
  | some f =>
    intro i
    dsimp only
    by_cases hi : i = f
    · subst hi
      rw [upd_same]
      exact h i
    · rw [upd_other _ _ _ _ hi]
      exact h i

/-- One FlushAllPgsImp step preserves the invariant. -/
theorem flushStep_pinInv (st : InstState) (p : Int × Nat) (h : PinInv st) :
    PinInv (flushStep st p) := by
  intro i
  rw [flushStep]
  dsimp only
  by_cases hi : i = p.2
  · rw [hi, upd_same]
    exact h _
  · rw [upd_other _ _ _ _ hi]
    exact h i

/-- FlushAllPgsImp preserves the invariant. -/
theorem flushAllPgs_pinInv (st : InstState) (h : PinInv st) : PinInv (flushAllPgs st) := by
  rw [flushAllPgs]
  generalize st.pageTable = l
  induction l generalizing st with
  | nil => exact h
  | cons p t ih =>
    exact ih _ (flushStep_pinInv st p h)

/-- DeletePgImp preserves the invariant: it only resets a frame to pin
count 0. -/
theorem deletePg_pinInv (st : InstState) (id : Int) (h : PinInv st) :
    PinInv (deletePg st id).1 := by
  rw [deletePg]
  cases hl : lookupPT st.pageTable id with
  | none => exact h
  | some f =>
    dsimp only
    split
    · exact h
    · intro i
      dsimp only
      by_cases hi : i = f
      · rw [hi, upd_same]
        exact le_refl 0
      · rw [upd_other _ _ _ _ hi]
        exact h i

/-- Every public operation preserves the invariant. -/
theorem applyOp_pinInv (st : InstState) (op : Op) (h : PinInv st) : PinInv (applyOp st op) := by
  cases op with
  | newPage => exact newPg_pinInv st h
  | fetchPage id => exact fetchPg_pinInv st id h
  | unpinPage id d => exact unpinPg_pinInv st id d h
  | flushPage id => exact flushPg_pinInv st id h
  | flushAll => exact flushAllPgs_pinInv st h
  | deletePage id => exact deletePg_pinInv st id h

/-- Invariant preservation over a whole run. -/
theorem runOps_pinInv (ops : List Op) : ∀ st, PinInv st → PinInv (runOps ops st) := by
  induction ops with
  | nil => intro st h; exact h
  | cons o t ih => intro st h; exact ih _ (applyOp_pinInv st o h)

/-- The fresh instance satisfies the invariant. -/
theorem instInit_pinInv (poolSize numInstances instanceIndex : Nat) :
    PinInv (instInit poolSize numInstances instanceIndex) :=
  fun _ => le_refl 0

/-- C8 (confirmed): across every sequence of operations on a
BufferPoolManagerInstance, every frame's pin count stays non-negative —
unpin on a page with pin count 0 returns false before the decrement, and
no other operation lowers a pin count below zero. -/
theorem pin_count_never_negative :
    ∀ (poolSize : Nat) (ops : List Op) (i : Nat),
      0 ≤ (((runOps ops (instInit poolSize 1 0))).frames i).pinCount :=
  fun poolSize ops i => runOps_pinInv ops _ (instInit_pinInv poolSize 1 0) i

/-! ### Claim C10: the constructor requires a fresh buffer pool -/

/-- Boolean success of the constructor run. -/
def hashTableCtorOk (st : InstState) : Bool :=
  match hashTableCtor st with
  | Except.ok _ => true
  | Except.error _ => false

/-- Frame selection never changes the allocation counter. -/
theorem pickFrame_nextPageId (st : InstState) :
    ∀ f st1, pickFrame st = some (f, st1) → st1.nextPageId = st.nextPageId := by
  intro f st1 h
  rw [pickFrame] at h
  cases hfl : st.freeList with
  | cons a rest =>
    rw [hfl] at h
    cases h
    rfl
  | nil =>
    rw [hfl] at h
    cases hv : lruVictim st.repl with
    | mk r1 o =>
      rw [hv] at h
      cases o with
      | some g => cases h; rfl
      | none => cases h

/-- A successful NewPgImp hands out exactly the current next_page_id_. -/
theorem newPg_id (st : InstState) :
    ∀ st1 id, newPg st = (st1, some id) → id = Int.ofNat st.nextPageId := by
  intro st1 id h
  rw [newPg] at h
  cases hpk : pickFrame st with
  | none =>
    rw [hpk] at h
    cases h
  | some p =>
    obtain ⟨f, stA⟩ := p
    rw [hpk] at h
    have hn := pickFrame_nextPageId st f stA hpk
    cases h
    rw [hn]

/-- C10 (confirmed): the ExtendibleHashTable constructor requires a buffer
pool that has never allocated a page. On any pool whose allocation counter
has advanced the constructor dies on its assertions (first conjunct: the
first NewPage returns the current counter, which is no longer 0). On a
fresh pool the assertions hold and the constructor succeeds with a
directory of global depth 0 whose slot 0 points at the single bucket page
1 with local depth 0 (second conjunct). -/
theorem ctor_requires_fresh_pool :
    (∀ st : InstState, st.nextPageId ≠ 0 → hashTableCtorOk st = false) ∧
    (∃ st1 d, hashTableCtor (instInit 10 1 0) = Except.ok (st1, d) ∧
       d.globalDepth = 0 ∧ d.bucketPageIds 0 = 1 ∧ d.localDepths 0 = 0) := by
  constructor
  · intro st hnz
    rw [hashTableCtorOk, hashTableCtor]
    cases hn : newPg st with
    | mk stA o =>
      cases o with
      | none => rfl
      | some id =>
        have hid : id = Int.ofNat st.nextPageId := newPg_id st stA id hn
        have : ¬ (id = 0) := by
          rw [hid]
          intro hc
          exact hnz (Int.ofNat.inj hc)
        dsimp only
        rw [if_neg this]
  · exact ⟨_, _, rfl, rfl, rfl, rfl⟩

/-- Buffer pool whose allocation counter has advanced: a fresh pool after
one new_page call. -/
def stateC10 : InstState := (newPg (instInit 10 1 0)).1

/-- Witness for the C10 theorem: the advanced pool stateC10 has a non-zero
counter and the constructor fails on it. -/
theorem ctor_requires_fresh_pool_witness :
    stateC10.nextPageId ≠ 0 ∧ hashTableCtorOk stateC10 = false :=
  ⟨by decide, ctor_requires_fresh_pool.1 stateC10 (by decide)⟩
